import Mathlib

/-!
Verification of the address-resolution core of the dmarc-rs repository.

The Rust sources are shallowly embedded as Lean functions:

* `Ip` embeds `struct Ip { ip: IpAddr, name: String }` from `src/ip.rs`.
* `IpList` embeds the wrapper around `Vec<Ip>` from `src/iplist.rs` and
  `src/resolve.rs`.
* the DNS lookup performed by the external `dns_lookup` crate is passed in
  as an oracle of type `Lookup`; a successful reverse lookup is `.ok name`,
  a failed one is `.error text` where `text` is the error's description.
* Rust panics (from `unwrap()`) are embedded as the `ResError.panicked`
  constructor of the result type, typed errors as the other constructors.
* the nondeterministic arrival order of the worker results in the fan-in
  channel of the parallel engines is embedded as a `Scheduler` parameter,
  a reordering function which theorems constrain to be a permutation
  (`Scheduler.Fair`).
-/

/-- Strict lexicographic order on lists of naturals, modelling the derived
`Ord` of the Rust arrays holding IPv4 octets or IPv6 16-bit groups. -/
def natListLt : List Nat → List Nat → Bool
  | [], [] => false
  | [], _ :: _ => true
  | _ :: _, [] => false
  | a :: as, b :: bs =>
    if a = b then natListLt as bs else decide (a < b)

theorem natListLt_irrefl : ∀ l : List Nat, natListLt l l = false
  | [] => rfl
  | a :: as => by simp [natListLt, natListLt_irrefl as]

theorem natListLt_asymm : ∀ a b : List Nat,
    natListLt a b = true → natListLt b a = true → False := by
  intro a
  induction a with
  | nil =>
    intro b h1 h2
    cases b <;> simp_all [natListLt]
  | cons x xs ih =>
    intro b h1 h2
    cases b with
    | nil => simp [natListLt] at h1
    | cons y ys =>
      simp only [natListLt] at h1 h2
      by_cases hxy : x = y
      · subst hxy
        simp only [if_pos rfl] at h1 h2
        exact ih ys h1 h2
      · have h1' : x < y := of_decide_eq_true (by simpa [if_neg hxy] using h1)
        have h2' : y < x :=
          of_decide_eq_true
            (by simpa [if_neg (fun e : y = x => hxy e.symm)] using h2)
        exact absurd h2' (Nat.lt_asymm h1')

theorem natListLt_trans : ∀ a b c : List Nat,
    natListLt a b = true → natListLt b c = true → natListLt a c = true := by
  intro a
  induction a with
  | nil =>
    intro b c hab hbc
    cases b <;> cases c <;> simp_all [natListLt]
  | cons x xs ih =>
    intro b c hab hbc
    cases b with
    | nil => simp [natListLt] at hab
    | cons y ys =>
      cases c with
      | nil => simp [natListLt] at hbc
      | cons z zs =>
        simp only [natListLt] at hab hbc ⊢
        by_cases hxy : x = y
        · subst hxy
          simp only [if_pos rfl] at hab
          by_cases hxz : x = z
          · subst hxz
            simp only [if_pos rfl] at hbc ⊢
            exact ih ys zs hab hbc
          · simp only [if_neg hxz] at hbc ⊢
            exact hbc
        · have hxy' : x < y := of_decide_eq_true (by simpa [if_neg hxy] using hab)
          by_cases hyz : y = z
          · subst hyz
            simp [if_neg hxy, hxy']
          · have hyz' : y < z := of_decide_eq_true (by simpa [if_neg hyz] using hbc)
            have hxz' : x < z := Nat.lt_trans hxy' hyz'
            simp [if_neg (Nat.ne_of_lt hxz'), hxz']

theorem natListLt_trichot : ∀ a b : List Nat,
    natListLt a b = true ∨ a = b ∨ natListLt b a = true
  | [], [] => Or.inr (Or.inl rfl)
  | [], _ :: _ => Or.inl rfl
  | _ :: _, [] => Or.inr (Or.inr rfl)
  | a :: as, b :: bs => by
    by_cases hab : a = b
    · subst hab
      rcases natListLt_trichot as bs with h | h | h
      · exact Or.inl (by simp [natListLt, h])
      · exact Or.inr (Or.inl (by rw [h]))
      · exact Or.inr (Or.inr (by simp [natListLt, h]))
    · rcases Nat.lt_or_ge a b with h | h
      · exact Or.inl (by simp [natListLt, if_neg hab, h])
      · have hba : b < a := Nat.lt_of_le_of_ne h (fun e => hab e.symm)
        exact Or.inr (Or.inr
          (by simp [natListLt, if_neg (fun e : b = a => hab e.symm), hba]))

/-- Lexicographic `≤` on lists of characters, modelling Rust's `Ord` on
`String` (byte-lexicographic, which agrees with scalar-value order). -/
def charListLe : List Char → List Char → Bool
  | [], _ => true
  | _ :: _, [] => false
  | a :: as, b :: bs =>
    if a = b then charListLe as bs else decide (a < b)

theorem charListLe_refl : ∀ l : List Char, charListLe l l = true
  | [] => rfl
  | a :: as => by simp [charListLe, charListLe_refl as]

theorem charListLe_total : ∀ a b : List Char,
    charListLe a b = true ∨ charListLe b a = true
  | [], _ => Or.inl rfl
  | _ :: _, [] => Or.inr rfl
  | a :: as, b :: bs => by
    by_cases hab : a = b
    · subst hab
      rcases charListLe_total as bs with h | h
      · exact Or.inl (by simp [charListLe, h])
      · exact Or.inr (by simp [charListLe, h])
    · rcases lt_trichotomy a b with h | h | h
      · exact Or.inl (by simp [charListLe, if_neg hab, h])
      · exact absurd h hab
      · exact Or.inr (by simp [charListLe, if_neg (fun e : b = a => hab e.symm), h])

theorem charListLe_trans : ∀ a b c : List Char,
    charListLe a b = true → charListLe b c = true → charListLe a c = true := by
  intro a
  induction a with
  | nil => intro b c _ _; rfl
  | cons x xs ih =>
    intro b c hab hbc
    cases b with
    | nil => simp [charListLe] at hab
    | cons y ys =>
      cases c with
      | nil => simp [charListLe] at hbc
      | cons z zs =>
        simp only [charListLe] at hab hbc ⊢
        by_cases hxy : x = y
        · subst hxy
          simp only [if_pos rfl] at hab
          by_cases hxz : x = z
          · subst hxz
            simp only [if_pos rfl] at hbc ⊢
            exact ih ys zs hab hbc
          · simp only [if_neg hxz] at hbc ⊢
            exact hbc
        · have hxy' : x < y := of_decide_eq_true (by simpa [if_neg hxy] using hab)
          by_cases hyz : y = z
          · subst hyz
            simp [if_neg hxy, hxy']
          · have hyz' : y < z := of_decide_eq_true (by simpa [if_neg hyz] using hbc)
            have hxz' : x < z := lt_trans hxy' hyz'
            simp [if_neg (ne_of_lt hxz'), hxz']

theorem charListLe_antisymm : ∀ a b : List Char,
    charListLe a b = true → charListLe b a = true → a = b := by
  intro a
  induction a with
  | nil =>
    intro b _ hba
    cases b with
    | nil => rfl
    | cons y ys => simp [charListLe] at hba
  | cons x xs ih =>
    intro b hab hba
    cases b with
    | nil => simp [charListLe] at hab
    | cons y ys =>
      simp only [charListLe] at hab hba
      by_cases hxy : x = y
      · subst hxy
        simp only [if_pos rfl] at hab hba
        rw [ih ys hab hba]
      · have h1 : x < y := of_decide_eq_true (by simpa [if_neg hxy] using hab)
        have h2 : y < x :=
          of_decide_eq_true
            (by simpa [if_neg (fun e : y = x => hxy e.symm)] using hba)
        exact absurd h2 (lt_asymm h1)

/-- Network address, `std::net::IpAddr`: either four IPv4 octets or eight
16-bit IPv6 groups. -/
inductive IpAddr where
  | v4 (octets : List Nat)
  | v6 (groups : List Nat)
deriving DecidableEq

/-- Strict order on addresses modelling the derived `Ord` of
`std::net::IpAddr`: every IPv4 address sorts before every IPv6 address,
and addresses of the same family compare lexicographically. -/
def IpAddr.lt : IpAddr → IpAddr → Bool
  | .v4 a, .v4 b => natListLt a b
  | .v4 _, .v6 _ => true
  | .v6 _, .v4 _ => false
  | .v6 a, .v6 b => natListLt a b

theorem IpAddr.lt_asymm : ∀ a b : IpAddr,
    IpAddr.lt a b = true → IpAddr.lt b a = true → False := by
  intro a b h1 h2
  cases a <;> cases b <;> simp only [IpAddr.lt] at h1 h2 <;>
    first
      | exact natListLt_asymm _ _ h1 h2
      | exact Bool.noConfusion h2
      | exact Bool.noConfusion h1

theorem IpAddr.lt_trans : ∀ a b c : IpAddr,
    IpAddr.lt a b = true → IpAddr.lt b c = true → IpAddr.lt a c = true := by
  intro a b c h1 h2
  cases a <;> cases b <;> cases c <;> simp only [IpAddr.lt] at h1 h2 ⊢ <;>
    first
      | exact natListLt_trans _ _ _ h1 h2
      | exact Bool.noConfusion h1
      | exact Bool.noConfusion h2

theorem IpAddr.lt_trichot : ∀ a b : IpAddr,
    IpAddr.lt a b = true ∨ a = b ∨ IpAddr.lt b a = true := by
  intro a b
  cases a with
  | v4 x =>
    cases b with
    | v4 y =>
      rcases natListLt_trichot x y with h | h | h
      · exact Or.inl h
      · exact Or.inr (Or.inl (by rw [h]))
      · exact Or.inr (Or.inr h)
    | v6 y => exact Or.inl rfl
  | v6 x =>
    cases b with
    | v4 y => exact Or.inr (Or.inr rfl)
    | v6 y =>
      rcases natListLt_trichot x y with h | h | h
      · exact Or.inl h
      · exact Or.inr (Or.inl (by rw [h]))
      · exact Or.inr (Or.inr h)

/-- One address/name record, `struct Ip` of `src/ip.rs`: an `IpAddr`
paired with a host name (`""` when unresolved). -/
structure Ip where
  ip : IpAddr
  name : String
deriving DecidableEq

/-- Canonical `≤` on records, modelling the derived lexicographic `Ord`
on `Ip` used by `Vec::sort` (spec: total ordering by address then name). -/
def Ip.leB (a b : Ip) : Bool :=
  if a.ip = b.ip then charListLe a.name.data b.name.data
  else IpAddr.lt a.ip b.ip

theorem Ip.leB_total : ∀ a b : Ip, (Ip.leB a b || Ip.leB b a) = true := by
  intro a b
  by_cases hip : a.ip = b.ip
  · simp only [Ip.leB, if_pos hip, if_pos hip.symm]
    rcases charListLe_total a.name.data b.name.data with h | h <;> simp [h]
  · have hip' : ¬(b.ip = a.ip) := fun e => hip e.symm
    simp only [Ip.leB, if_neg hip, if_neg hip']
    rcases IpAddr.lt_trichot a.ip b.ip with h | h | h
    · simp [h]
    · exact absurd h hip
    · simp [h]

theorem Ip.leB_trans : ∀ a b c : Ip,
    Ip.leB a b = true → Ip.leB b c = true → Ip.leB a c = true := by
  intro a b c hab hbc
  by_cases h1 : a.ip = b.ip
  · by_cases h2 : b.ip = c.ip
    · have h3 : a.ip = c.ip := h1.trans h2
      simp only [Ip.leB, if_pos h1] at hab
      simp only [Ip.leB, if_pos h2] at hbc
      simp only [Ip.leB, if_pos h3]
      exact charListLe_trans _ _ _ hab hbc
    · have h3 : ¬(a.ip = c.ip) := fun e => h2 (h1.symm.trans e)
      simp only [Ip.leB, if_neg h2] at hbc
      simp only [Ip.leB, if_neg h3]
      rw [h1]
      exact hbc
  · by_cases h2 : b.ip = c.ip
    · have h3 : ¬(a.ip = c.ip) := fun e => h1 (e.trans h2.symm)
      simp only [Ip.leB, if_neg h1] at hab
      simp only [Ip.leB, if_neg h3]
      rw [← h2]
      exact hab
    · simp only [Ip.leB, if_neg h1] at hab
      simp only [Ip.leB, if_neg h2] at hbc
      have h3 : IpAddr.lt a.ip c.ip = true := IpAddr.lt_trans _ _ _ hab hbc
      have h4 : ¬(a.ip = c.ip) := by
        intro e
        rw [e] at hab
        exact IpAddr.lt_asymm _ _ hab hbc
      simp only [Ip.leB, if_neg h4]
      exact h3

theorem Ip.leB_antisymm : ∀ a b : Ip,
    Ip.leB a b = true → Ip.leB b a = true → a = b := by
  intro a b hab hba
  by_cases hip : a.ip = b.ip
  · simp only [Ip.leB, if_pos hip] at hab
    simp only [Ip.leB, if_pos hip.symm] at hba
    have hdata : a.name.data = b.name.data := charListLe_antisymm _ _ hab hba
    have hname : a.name = b.name := String.toList_inj.mp hdata
    cases a with
    | mk aip aname =>
      cases b with
      | mk bip bname =>
        simp_all
  · simp only [Ip.leB, if_neg hip] at hab
    simp only [Ip.leB, if_neg (fun e : b.ip = a.ip => hip e.symm)] at hba
    exact absurd (IpAddr.lt_asymm _ _ hab hba) not_false

/-- Canonical record order as a proposition, for the sortedness lemmas. -/
def IpLe (a b : Ip) : Prop := Ip.leB a b = true

instance : IsTrans Ip IpLe := ⟨fun _ _ _ => Ip.leB_trans _ _ _⟩

instance : IsAntisymm Ip IpLe := ⟨fun _ _ => Ip.leB_antisymm _ _⟩

instance : IsTotal Ip IpLe :=
  ⟨fun a b => by
    have h := Ip.leB_total a b
    rcases Bool.or_eq_true_iff.mp h with h' | h'
    · exact Or.inl h'
    · exact Or.inr h'⟩

/-- Canonical sort of a record list, modelling `Vec::sort` (a stable merge
sort by the derived `Ord`). -/
def sortByAddr (l : List Ip) : List Ip := l.mergeSort Ip.leB

theorem sortByAddr_perm (l : List Ip) : (sortByAddr l).Perm l :=
  List.mergeSort_perm l _

theorem sortByAddr_sorted (l : List Ip) : (sortByAddr l).Pairwise IpLe :=
  @List.sorted_mergeSort Ip Ip.leB
    (fun a b c hab hbc => Ip.leB_trans a b c hab hbc)
    (fun a b => Ip.leB_total a b) l

theorem sortByAddr_length (l : List Ip) : (sortByAddr l).length = l.length :=
  (sortByAddr_perm l).length_eq

theorem sortByAddr_canon {l₁ l₂ : List Ip} (h : l₁.Perm l₂) :
    sortByAddr l₁ = sortByAddr l₂ :=
  List.eq_of_perm_of_sorted
    ((sortByAddr_perm l₁).trans (h.trans (sortByAddr_perm l₂).symm))
    (sortByAddr_sorted l₁) (sortByAddr_sorted l₂)

/-- Splitting a character list at every occurrence of a separator,
modelling `str::split` for one-character patterns. -/
def splitOnChar (c : Char) : List Char → List (List Char)
  | [] => [[]]
  | x :: xs =>
    if x = c then [] :: splitOnChar c xs
    else
      match splitOnChar c xs with
      | h :: t => (x :: h) :: t
      | [] => [[x]]

/-- Splitting a character list at every occurrence of the two-character
separator `::`, leftmost-first, modelling how the address parser locates
the zero-compression marker. -/
def splitDC : List Char → List (List Char)
  | [] => [[]]
  | ':' :: ':' :: xs => [] :: splitDC xs
  | x :: xs =>
    match splitDC xs with
    | h :: t => (x :: h) :: t
    | [] => [[x]]

/-- Value of one decimal digit character, `none` on anything else. -/
def decVal (c : Char) : Option Nat :=
  let n := c.toNat
  if 48 ≤ n && n ≤ 57 then some (n - 48) else none

/-- Value of one hexadecimal digit character, `none` on anything else. -/
def hexVal (c : Char) : Option Nat :=
  let n := c.toNat
  if 48 ≤ n && n ≤ 57 then some (n - 48)
  else if 97 ≤ n && n ≤ 102 then some (n - 87)
  else if 65 ≤ n && n ≤ 70 then some (n - 55)
  else none

/-- One IPv4 octet, modelled from `std`'s address parser: one to three
decimal digits, no leading zero, value at most 255. -/
def parseDecGroup (cs : List Char) : Option Nat :=
  if cs.length = 0 || decide (3 < cs.length) then none
  else
    match cs with
    | '0' :: _ :: _ => none
    | _ =>
      match cs.mapM decVal with
      | none => none
      | some ds =>
        let n := ds.foldl (fun acc d => acc * 10 + d) 0
        if n ≤ 255 then some n else none

/-- One IPv6 group: one to four hexadecimal digits. -/
def parseHexGroup (cs : List Char) : Option Nat :=
  if cs.length = 0 || decide (4 < cs.length) then none
  else
    match cs.mapM hexVal with
    | none => none
    | some ds => some (ds.foldl (fun acc d => acc * 16 + d) 0)

/-- IPv4 literal: exactly four dot-separated octets.  Modelled from the
`FromStr` implementation of `std::net::Ipv4Addr`. -/
def parseIPv4 (cs : List Char) : Option IpAddr :=
  match (splitOnChar '.' cs).mapM parseDecGroup with
  | some [a, b, c, d] => some (.v4 [a, b, c, d])
  | _ => none

/-- Groups appearing after a `::` marker: hexadecimal groups where the last
one may instead be an embedded IPv4 address (two 16-bit groups). -/
def parseV6Tail (parts : List (List Char)) : Option (List Nat) :=
  match parts with
  | [] => some []
  | _ =>
    match parts.dropLast.mapM parseHexGroup, parts.getLast? with
    | some hs, some last =>
      match parseHexGroup last with
      | some h => some (hs ++ [h])
      | none =>
        match parseIPv4 last with
        | some (.v4 [a, b, c, d]) => some (hs ++ [a * 256 + b, c * 256 + d])
        | _ => none
    | _, _ => none

/-- IPv6 literal, modelled from the `FromStr` implementation of
`std::net::Ipv6Addr`: eight colon-separated hexadecimal groups, or seven
groups whose last is an embedded IPv4 address, or two such sequences
joined by one `::` marker standing for at least one zero group (so the
explicit groups number at most seven, an embedded IPv4 counting as
two). -/
def parseIPv6 (cs : List Char) : Option IpAddr :=
  match splitDC cs with
  | [whole] =>
    let parts := splitOnChar ':' whole
    if parts.length = 8 then
      (parts.mapM parseHexGroup).map IpAddr.v6
    else if parts.length = 7 then
      match (parts.take 6).mapM parseHexGroup, parts.getLast? with
      | some hs, some last =>
        match parseIPv4 last with
        | some (.v4 [a, b, c, d]) => some (.v6 (hs ++ [a * 256 + b, c * 256 + d]))
        | _ => none
      | _, _ => none
    else none
  | [l, r] =>
    let lparts := if l.isEmpty then [] else splitOnChar ':' l
    let rparts := if r.isEmpty then [] else splitOnChar ':' r
    match lparts.mapM parseHexGroup, parseV6Tail rparts with
    | some hs, some ts =>
      if hs.length + ts.length ≤ 7 then
        some (.v6 (hs ++ List.replicate (8 - hs.length - ts.length) 0 ++ ts))
      else none
    | _, _ => none
  | _ => none

/-- Address parsing, modelling `str::parse::<IpAddr>()`: first as IPv4,
then as IPv6. -/
def IpAddr.parse (s : String) : Option IpAddr :=
  match parseIPv4 s.data with
  | some a => some a
  | none => parseIPv6 s.data

/-- Hexadecimal rendering of one 16-bit group (lowercase, no padding). -/
def natToHex (n : Nat) : String := (Nat.toDigits 16 n).asString

/-- Dotted-decimal rendering of an IPv4 octet list, modelling the
`Display` implementation of `std::net::Ipv4Addr`. -/
def v4String (o : List Nat) : String :=
  String.intercalate "." (o.map (fun n => Nat.repr n))

/-- Position and length of the first longest run of zero groups;
the accumulator carries the current index, the current run and the best
run seen so far. -/
def bestRunAux : List Nat → Nat → Nat → Nat → Nat × Nat → Nat × Nat
  | [], _, curStart, curLen, best =>
    if best.2 < curLen then (curStart, curLen) else best
  | x :: xs, i, curStart, curLen, best =>
    if x = 0 then
      bestRunAux xs (i + 1) (if curLen = 0 then i else curStart) (curLen + 1) best
    else
      bestRunAux xs (i + 1) 0 0 (if best.2 < curLen then (curStart, curLen) else best)

/-- Rendering of an IPv6 group list, modelling the `Display`
implementation of `std::net::Ipv6Addr`: the IPv4-mapped form is printed
as `::ffff:a.b.c.d`, otherwise the first longest run of at least two zero
groups is compressed to `::`. -/
def v6String (g : List Nat) : String :=
  match g with
  | [0, 0, 0, 0, 0, 65535, x, y] =>
    "::ffff:" ++ v4String [x / 256, x % 256, y / 256, y % 256]
  | _ =>
    let best := bestRunAux g 0 0 0 (0, 0)
    if 2 ≤ best.2 then
      String.intercalate ":" ((g.take best.1).map natToHex) ++ "::" ++
        String.intercalate ":" ((g.drop (best.1 + best.2)).map natToHex)
    else
      String.intercalate ":" (g.map natToHex)

/-- Textual form of an address, modelling `IpAddr`'s `Display` (the
`ip.to_string()` calls of the sources). -/
def IpAddr.toString : IpAddr → String
  | .v4 o => v4String o
  | .v6 g => v6String g

/-- Result type of the fallible operations.  Typed errors keep their own
constructors; a Rust panic (an `unwrap()` on a failed computation) is the
`panicked` constructor, which is *not* a typed error returned to the
caller. -/
inductive ResError where
  | emptyList
  | tooManyJobs
  | panicked (msg : String)
deriving DecidableEq

/-- Message of the panic raised by `unwrap()` on an error value. -/
def unwrapMsg : String := "called unwrap on an error value"

/-- Reverse-lookup oracle standing for `dns_lookup::lookup_addr`: `.ok`
with the found name, or `.error` with the error's textual description. -/
abbrev Lookup := IpAddr → Except String String

/-- Arrival order of worker results at the fan-in channel of a parallel
engine: a reordering of the result list chosen by the scheduler. -/
abbrev Scheduler := List Ip → List Ip

/-- Honest schedulers deliver every worker result exactly once: the
arrival order is a permutation of the results. -/
def Scheduler.Fair (sched : Scheduler) : Prop :=
  ∀ xs : List Ip, (sched xs).Perm xs

/-- Record construction, `Ip::new` of `src/ip.rs`:
`s.parse::<IpAddr>().unwrap()` with an empty name, so a string that does
not parse as an address makes `new` panic (the in-source doc comment says
so, and the `test_ip_new_nok` test expects the panic). -/
def Ip.new (s : String) : Except ResError Ip :=
  match IpAddr.parse s with
  | some a => .ok { ip := a, name := "" }
  | none => .error (.panicked unwrapMsg)

/-- Record resolution, `Ip::solve` of `src/ip.rs`: a successful lookup
that merely echoes the address's textual form is replaced by the
`some.host.invalid` sentinel; a failed lookup becomes the error's
description.  The function is total: it never panics. -/
def Ip.solve (lookup : Lookup) (self : Ip) : Ip :=
  let ip := self.ip
  let name :=
    match lookup ip with
    | .ok nm => if IpAddr.toString ip = nm then "some.host.invalid" else nm
    | .error e => e
  { ip := ip, name := name }

/-- The Null capability (`NullResolver::solve` of `src/res/mod.rs` and
`src/resolver.rs`): the name is the address's own textual form. -/
def NullResolver.solve (ip : Ip) : Ip :=
  { ip := ip.ip, name := IpAddr.toString ip.ip }

/-- The Fake capability (`FakeResolver::solve`): a fixed placeholder
name for every input. -/
def FakeResolver.solve (ip : Ip) : Ip :=
  { ip := ip.ip, name := "some.host.invalid" }

/-- The Sleep capability (`SleepResolver::solve`): sleeps one
millisecond, then behaves exactly like the Fake capability; the sleep has
no effect on the data. -/
def SleepResolver.solve (ip : Ip) : Ip :=
  { ip := ip.ip, name := "some.host.invalid" }

/-- The Live capability (`RealResolver::solve` of `src/res/mod.rs`,
`src/resolver.rs` and `src/res/resolver.rs`):
`lookup_addr(&ip.ip).unwrap()`, so a failed lookup panics, and a
successful one is returned verbatim (no no-PTR substitution here). -/
def RealResolver.solve (lookup : Lookup) (ip : Ip) : Except ResError Ip :=
  match lookup ip.ip with
  | .ok nm => .ok { ip := ip.ip, name := nm }
  | .error _ => .error (.panicked unwrapMsg)

/-- Ordered record list, the `IpList` wrapper around `Vec<Ip>` of
`src/iplist.rs` (field `.0`) and `src/resolve.rs` (field `list`). -/
structure IpList where
  list : List Ip
deriving DecidableEq

/-- Sequential engine of `src/iplist.rs` (`IpList::simple_solve`):
resolves each record in order with `Ip::solve`, then sorts the result
canonically. -/
def Iplist.simple_solve (lookup : Lookup) (self : IpList) : IpList :=
  { list := sortByAddr (self.list.map (Ip.solve lookup)) }

/-- Parallel engine of `src/iplist.rs` (`IpList::parallel_solve`): the
queue feeds every record to the worker pool, each record is resolved once
with `Ip::solve`, the fan-in collects the results in scheduler order, and
the collected list is sorted canonically.  `njobs` only sizes the thread
pool. -/
def Iplist.parallel_solve (lookup : Lookup) (sched : Scheduler)
    (self : IpList) (njobs : Nat) : IpList :=
  let _ := njobs
  { list := sortByAddr (sched (self.list.map (Ip.solve lookup))) }

/-- Sequential engine of `src/resolve.rs` (`IpList::simple_solve` there):
identical to the `iplist.rs` one except that it does **not** sort the
result. -/
def ResolveRs.simple_solve (lookup : Lookup) (self : IpList) : IpList :=
  { list := self.list.map (Ip.solve lookup) }

/-- Parallel engine of `src/resolve.rs` (`IpList::parallel_solve` there):
like the `iplist.rs` pipeline but without the final sort; the collected
list is returned in scheduler order. -/
def ResolveRs.parallel_solve (lookup : Lookup) (sched : Scheduler)
    (self : IpList) (njobs : Nat) : IpList :=
  let _ := njobs
  { list := sched (self.list.map (Ip.solve lookup)) }

/-- Iterator step of the `Iterator` implementation for `IpList` in
`src/resolve.rs`: `self.list.iter().next()` builds a fresh iterator each
call and clones its first element, so the state never advances. -/
def ResolveRs.next (self : IpList) : Option Ip × IpList :=
  (self.list.head?, self)

/-- Iterated application of `ResolveRs.next`, returning the `n`-th
emitted element and the state after `n + 1` calls. -/
def ResolveRs.nextN (self : IpList) : Nat → Option Ip × IpList
  | 0 => ResolveRs.next self
  | n + 1 => ResolveRs.next (ResolveRs.nextN self n).2

/-- Asynchronous parallel engine
(`src/bin/dmarc-cat/async_resolve.rs::parallel_solve`, also the engine
behind the `njobs > 1` branch of `src/res/resolver.rs::resolve`): the
queue feeds every record, each is resolved once by the shared solver, and
the fan-in output is returned in scheduler order — the final sort is
commented out in the source. -/
def AsyncResolve.parallel_solve (solver : Ip → Ip) (sched : Scheduler)
    (self : IpList) (workers : Nat) : IpList :=
  let _ := workers
  { list := sched (self.list.map solver) }

/-- Sequential engine of `src/res/resolver.rs` (`simple_solve`): maps the
shared solver over the list and sorts the result canonically. -/
def ResResolver.simple_solve (solver : Ip → Ip) (ipl : IpList) : IpList :=
  { list := sortByAddr (ipl.list.map solver) }

/-- Dispatcher of `src/res/resolver.rs` (`resolve`): an empty list is an
error; then `njobs > max_threads` is rejected; a one-element list is
resolved inline; `njobs == 1` runs the sequential engine and anything
else the parallel one.  `maxThreads` is the injected host core count
(`num_cpus::get()`). -/
def ResResolver.resolve (maxThreads : Nat) (ipl : IpList) (njobs : Nat)
    (solver : Ip → Ip) (sched : Scheduler) : Except ResError IpList :=
  match ipl.list with
  | [] => .error .emptyList
  | x :: rest =>
    if maxThreads < njobs then .error .tooManyJobs
    else if rest.isEmpty then .ok { list := [solver x] }
    else
      match njobs with
      | 1 => .ok (ResResolver.simple_solve solver ipl)
      | _ => .ok (AsyncResolve.parallel_solve solver sched ipl njobs)

/-- One worker lookup of the binary's solver
(`src/bin/dmarc-cat/resolve.rs`): `self.lookup_addr(&ip.ip).unwrap()`,
panicking when the lookup fails. -/
def RealSolver.lookupRecord (lookup : Lookup) (ip : Ip) : Except ResError Ip :=
  match lookup ip.ip with
  | .ok nm => .ok { ip := ip.ip, name := nm }
  | .error _ => .error (.panicked unwrapMsg)

/-- Sequential engine of `src/bin/dmarc-cat/resolve.rs`
(`RealSolver::simple_solve`): looks up every record (unwrapping), then
sorts canonically. -/
def RealSolver.simple_solve (lookup : Lookup) (ipl : IpList) :
    Except ResError IpList :=
  (ipl.list.mapM (RealSolver.lookupRecord lookup)).map
    (fun xs => { list := sortByAddr xs })

/-- Parallel engine of `src/bin/dmarc-cat/resolve.rs`
(`RealSolver::parallel_solve`): every record is looked up once
(unwrapping; a worker panic is modelled as the whole call panicking), the
fan-in collects in scheduler order, and the collected list is sorted
canonically. -/
def RealSolver.parallel_solve (lookup : Lookup) (sched : Scheduler)
    (ipl : IpList) (njobs : Nat) : Except ResError IpList :=
  let _ := njobs
  (ipl.list.mapM (RealSolver.lookupRecord lookup)).map
    (fun xs => { list := sortByAddr (sched xs) })

/-- Dispatcher of `src/bin/dmarc-cat/resolve.rs` (`RealSolver::solve`):
rejects `njobs > max_threads` before any work, then routes to the
sequential engine for `njobs == 1` and to the parallel one otherwise. -/
def RealSolver.solve (maxThreads : Nat) (lookup : Lookup)
    (sched : Scheduler) (ipl : IpList) (njobs : Nat) :
    Except ResError IpList :=
  if maxThreads < njobs then .error .tooManyJobs
  else
    match njobs with
    | 1 => RealSolver.simple_solve lookup ipl
    | _ => RealSolver.parallel_solve lookup sched ipl njobs

/-- Per-element work of the rayon map in `src/res/mod.rs::resolve`:
each task evaluates `res.solve(&Ip::new(ip))` on one raw string, so an
invalid string panics inside the task; the first panic propagates out of
the collect. -/
def ResMod.solveAll (solver : Ip → Ip) : List String → Except ResError (List Ip)
  | [] => .ok []
  | s :: rest =>
    match (Ip.new s).map solver with
    | .error e => .error e
    | .ok ip =>
      match ResMod.solveAll solver rest with
      | .error e => .error e
      | .ok ips => .ok (ip :: ips)

/-- String-taking dispatcher of `src/res/mod.rs` (`resolve`): an empty
list is an error; a one-element list is parsed and resolved inline;
otherwise every raw string is parsed with `Ip::new` and resolved inside
the resolve call (rayon `par_iter`), and the collected list is sorted.
Record construction — and its panic on an invalid literal — therefore
happens during resolution here. -/
def ResMod.resolve (solver : Ip → Ip) (ipl : List String) :
    Except ResError (List Ip) :=
  match ipl with
  | [] => .error .emptyList
  | [s] => (Ip.new s).map (fun ip => [solver ip])
  | _ => (ResMod.solveAll solver ipl).map sortByAddr

/-- Adjacent-pairs check that a record list is in the canonical order. -/
def sortedChain : List Ip → Bool
  | [] => true
  | [_] => true
  | a :: b :: t => Ip.leB a b && sortedChain (b :: t)

/-- Concrete record `1.1.1.1` with an empty name, for instances. -/
def ipOne : Ip := { ip := .v4 [1, 1, 1, 1], name := "" }

/-- Concrete record `9.9.9.9` with an empty name, for instances. -/
def ipNine : Ip := { ip := .v4 [9, 9, 9, 9], name := "" }

/-- Concrete two-record list, for instances. -/
def twoIps : IpList := { list := [ipNine, ipOne] }

theorem sortedChain_of_pairwise :
    ∀ l : List Ip, l.Pairwise IpLe → sortedChain l = true
  | [], _ => rfl
  | [_], _ => rfl
  | a :: b :: t, h => by
    rcases List.pairwise_cons.mp h with ⟨hrel, htail⟩
    have hab : Ip.leB a b = true := hrel b (List.mem_cons_self b t)
    have ht : sortedChain (b :: t) = true :=
      sortedChain_of_pairwise (b :: t) htail
    simp [sortedChain, hab, ht]

theorem ResResolver.resolve_isOk (maxThreads njobs : Nat) (solver : Ip → Ip)
    (sched : Scheduler) (ipl : IpList) (hne : ipl.list ≠ [])
    (hle : njobs ≤ maxThreads) :
    ∃ r, ResResolver.resolve maxThreads ipl njobs solver sched = Except.ok r := by
  cases hl : ipl.list with
  | nil => exact absurd hl hne
  | cons x rest =>
    simp only [ResResolver.resolve, hl]
    rw [if_neg (by omega)]
    by_cases hr : rest.isEmpty
    · rw [if_pos hr]
      exact ⟨_, rfl⟩
    · rw [if_neg hr]
      rcases njobs with _ | _ | n
      · exact ⟨_, rfl⟩
      · exact ⟨_, rfl⟩
      · exact ⟨_, rfl⟩

theorem ResResolver.resolve_perm {maxThreads njobs : Nat} {solver : Ip → Ip}
    {sched : Scheduler} {ipl r : IpList} (hf : Scheduler.Fair sched)
    (h : ResResolver.resolve maxThreads ipl njobs solver sched = Except.ok r) :
    r.list.Perm (ipl.list.map solver) := by
  cases hl : ipl.list with
  | nil =>
    simp only [ResResolver.resolve, hl] at h
    simp at h
  | cons x rest =>
    simp only [ResResolver.resolve, hl] at h
    by_cases hmt : maxThreads < njobs
    · rw [if_pos hmt] at h
      simp at h
    · rw [if_neg hmt] at h
      by_cases hr : rest.isEmpty
      · rw [if_pos hr] at h
        have hrest : rest = [] := by
          cases rest with
          | nil => rfl
          | cons a b => simp [List.isEmpty] at hr
        subst hrest
        simp only [Except.ok.injEq] at h
        subst h
        exact List.Perm.refl _
      · rw [if_neg hr] at h
        rcases njobs with _ | _ | n
        · simp only [Except.ok.injEq] at h
          subst h
          simp only [AsyncResolve.parallel_solve]
          rw [hl]
          exact hf _
        · simp only [Except.ok.injEq] at h
          subst h
          simp only [ResResolver.simple_solve]
          rw [hl]
          exact sortByAddr_perm _
        · simp only [Except.ok.injEq] at h
          subst h
          simp only [AsyncResolve.parallel_solve]
          rw [hl]
          exact hf _

theorem Iplist.parallel_solve_length (lookup : Lookup) (sched : Scheduler)
    (self : IpList) (njobs : Nat) (hf : Scheduler.Fair sched) :
    (Iplist.parallel_solve lookup sched self njobs).list.length =
      self.list.length := by
  simp only [Iplist.parallel_solve]
  rw [sortByAddr_length, (hf _).length_eq, List.length_map]

/-- Claim C1 (amended): for every non-empty address list and every job
count `1 ≤ njobs ≤ max_threads`, `resolve` succeeds and returns a list
whose length equals the input's — no entry is dropped even when
individual lookups fail, since the solver turns failures into data — and
the `iplist.rs` parallel engine preserves the length as well.  The
original claim also demanded success on the empty list, which the
dispatcher instead rejects with the empty-list error
(`claim1_counterexample`). -/
theorem claim1_length_preservation (maxThreads njobs : Nat)
    (solver : Ip → Ip) (lookup : Lookup) (sched : Scheduler) (ipl : IpList)
    (hne : ipl.list ≠ []) (hjobs : 1 ≤ njobs) (hmax : njobs ≤ maxThreads)
    (hf : Scheduler.Fair sched) :
    (∃ r, ResResolver.resolve maxThreads ipl njobs solver sched =
        Except.ok r ∧ r.list.length = ipl.list.length) ∧
      (Iplist.parallel_solve lookup sched ipl njobs).list.length =
        ipl.list.length := by
  constructor
  · obtain ⟨r, hr⟩ :=
      ResResolver.resolve_isOk maxThreads njobs solver sched ipl hne hmax
    refine ⟨r, hr, ?_⟩
    have hperm := ResResolver.resolve_perm hf hr
    rw [hperm.length_eq, List.length_map]
  · exact Iplist.parallel_solve_length lookup sched ipl njobs hf

/-- Claim C1, counterexample: at the explicit input `L = []`, `njobs = 1`,
`max_threads = 4` the dispatcher does not succeed — it returns the
empty-list error, so the claim's "including the empty list" fails. -/
theorem claim1_counterexample :
    ResResolver.resolve 4 { list := [] } 1 FakeResolver.solve id =
      Except.error ResError.emptyList := rfl

/-- Claim C1, witness at a two-record list with `njobs = 2 ≤ 4`. -/
theorem claim1_witness :
    (∃ r, ResResolver.resolve 4 twoIps 2 FakeResolver.solve id =
        Except.ok r ∧ r.list.length = twoIps.list.length) ∧
      (Iplist.parallel_solve (fun _ => Except.ok "a.b") id twoIps 2).list.length =
        twoIps.list.length :=
  claim1_length_preservation 4 2 FakeResolver.solve (fun _ => Except.ok "a.b")
    id twoIps (by decide) (by decide) (by decide) (fun xs => List.Perm.refl xs)

/-- Claim C2: strategy equivalence.  For the `iplist.rs` engines the
parallel result is *equal* to the sequential one whatever the job count
and arrival order (both sort canonically, and sorting a permutation of
the same results is canonical), so the sets of resolved (address, name)
pairs coincide; and any two successful dispatcher runs over the same
list with valid job counts produce permutations of each other — the same
pairs, differing at most in order before canonical sorting. -/
theorem claim2_strategy_equivalence (lookup : Lookup) (ipl : IpList)
    (njobs1 njobs2 : Nat) (sched1 sched2 : Scheduler)
    (hf1 : Scheduler.Fair sched1) (hf2 : Scheduler.Fair sched2) :
    Iplist.parallel_solve lookup sched1 ipl njobs1 =
        Iplist.simple_solve lookup ipl ∧
      Iplist.parallel_solve lookup sched1 ipl njobs1 =
        Iplist.parallel_solve lookup sched2 ipl njobs2 ∧
      ∀ maxThreads solver r1 r2,
        ResResolver.resolve maxThreads ipl njobs1 solver sched1 =
          Except.ok r1 →
        ResResolver.resolve maxThreads ipl njobs2 solver sched2 =
          Except.ok r2 →
        r1.list.Perm r2.list := by
  refine ⟨?_, ?_, ?_⟩
  · exact congrArg IpList.mk (sortByAddr_canon (hf1 _))
  · exact congrArg IpList.mk
      (sortByAddr_canon ((hf1 _).trans (hf2 _).symm))
  · intro maxThreads solver r1 r2 h1 h2
    exact (ResResolver.resolve_perm hf1 h1).trans
      (ResResolver.resolve_perm hf2 h2).symm

/-- Claim C2, witness: concrete equality of the two `iplist.rs` engines
and a concrete dispatcher permutation, at a two-record list with job
counts 2 and 2. -/
theorem claim2_witness :
    (Iplist.parallel_solve (fun _ => Except.ok "a.b") id twoIps 2 =
        Iplist.simple_solve (fun _ => Except.ok "a.b") twoIps) ∧
      ({ list := [FakeResolver.solve ipNine, FakeResolver.solve ipOne] } :
          IpList).list.Perm
        ({ list := [FakeResolver.solve ipNine, FakeResolver.solve ipOne] } :
          IpList).list :=
  ⟨(claim2_strategy_equivalence (fun _ => Except.ok "a.b") twoIps 2 2 id id
      (fun xs => List.Perm.refl xs) (fun xs => List.Perm.refl xs)).1,
    (claim2_strategy_equivalence (fun _ => Except.ok "a.b") twoIps 2 2 id id
      (fun xs => List.Perm.refl xs) (fun xs => List.Perm.refl xs)).2.2
      4 FakeResolver.solve _ _ rfl rfl⟩

/-- Claim C3 (amended): the `Ip::solve` form of the Live lookup never
raises — when the reverse lookup fails it returns a record with the same
address whose name is the lookup error's textual description, so failure
becomes data; but the `RealResolver::solve` variants instead `unwrap()`
the lookup result and panic on failure (`claim3_counterexample`). -/
theorem claim3_failure_becomes_data (lookup : Lookup) (ip : Ip) (e : String)
    (h : lookup ip.ip = Except.error e) :
    Ip.solve lookup ip = { ip := ip.ip, name := e } := by
  simp [Ip.solve, h]

/-- Claim C3, counterexample: at a concrete record, a Live capability
(`RealResolver::solve`) whose lookup fails panics instead of returning
the error text as data, so "never raises" is false for it. -/
theorem claim3_counterexample :
    RealResolver.solve (fun _ => Except.error "lookup failed")
        { ip := IpAddr.v4 [1, 1, 1, 1], name := "" } =
      Except.error (ResError.panicked unwrapMsg) := rfl

/-- Claim C3, witness: a concrete failed lookup whose text becomes the
resolved name. -/
theorem claim3_witness :
    Ip.solve (fun _ => Except.error "lookup failed")
        { ip := IpAddr.v4 [1, 1, 1, 1], name := "" } =
      { ip := IpAddr.v4 [1, 1, 1, 1], name := "lookup failed" } :=
  claim3_failure_becomes_data (fun _ => Except.error "lookup failed")
    { ip := IpAddr.v4 [1, 1, 1, 1], name := "" } "lookup failed" rfl

/-- Claim C4 (amended): when the reverse lookup succeeds but returns the
address's own textual form, the `Ip::solve` form of the Live lookup
substitutes the fixed no-PTR sentinel `some.host.invalid`; but the
`RealResolver::solve` variant returns the lookup result verbatim,
including the bare address form (`claim4_counterexample`). -/
theorem claim4_noptr_substitution (lookup : Lookup) (ip : Ip)
    (h : lookup ip.ip = Except.ok (IpAddr.toString ip.ip)) :
    Ip.solve lookup ip = { ip := ip.ip, name := "some.host.invalid" } := by
  simp [Ip.solve, h]

/-- Claim C4, counterexample: at the concrete address `1.1.1.1` with a
lookup echoing the address's own textual form, the Live capability
`RealResolver::solve` returns the bare address string as the name, not
the no-PTR sentinel. -/
theorem claim4_counterexample :
    RealResolver.solve (fun a => Except.ok (IpAddr.toString a))
        { ip := IpAddr.v4 [1, 1, 1, 1], name := "" } =
      Except.ok { ip := IpAddr.v4 [1, 1, 1, 1], name := "1.1.1.1" } ∧
      "1.1.1.1" ≠ "some.host.invalid" := ⟨rfl, by decide⟩

/-- Claim C4, witness: the substitution at the concrete address
`1.1.1.1`. -/
theorem claim4_witness :
    Ip.solve (fun a => Except.ok (IpAddr.toString a))
        { ip := IpAddr.v4 [1, 1, 1, 1], name := "" } =
      { ip := IpAddr.v4 [1, 1, 1, 1], name := "some.host.invalid" } :=
  claim4_noptr_substitution (fun a => Except.ok (IpAddr.toString a))
    { ip := IpAddr.v4 [1, 1, 1, 1], name := "" } rfl

/-- Claim C5: whenever `njobs` exceeds the injected core count
`max_threads`, both dispatchers fail with the too-many-jobs error — for
every lookup, solver, scheduler and input list alike, so the check is
evaluated before any resolution work (the outcome cannot depend on a
single resolved record). -/
theorem claim5_oversubscription (maxThreads njobs : Nat)
    (h : maxThreads < njobs) :
    (∀ (lookup : Lookup) (sched : Scheduler) (ipl : IpList),
        RealSolver.solve maxThreads lookup sched ipl njobs =
          Except.error ResError.tooManyJobs) ∧
      ∀ (solver : Ip → Ip) (sched : Scheduler) (ipl : IpList) (x : Ip)
        (rest : List Ip), ipl.list = x :: rest →
        ResResolver.resolve maxThreads ipl njobs solver sched =
          Except.error ResError.tooManyJobs := by
  constructor
  · intro lookup sched ipl
    unfold RealSolver.solve
    rw [if_pos h]
  · intro solver sched ipl x rest hl
    simp only [ResResolver.resolve, hl]
    rw [if_pos h]

/-- Claim C5, witness: `max_threads = 4`, `njobs = 5`, a concrete
non-empty two-record list. -/
theorem claim5_witness :
    RealSolver.solve 4 (fun _ => Except.ok "a.b") id twoIps 5 =
        Except.error ResError.tooManyJobs ∧
      ResResolver.resolve 4 twoIps 5 FakeResolver.solve id =
        Except.error ResError.tooManyJobs :=
  ⟨(claim5_oversubscription 4 5 (by decide)).1 (fun _ => Except.ok "a.b")
      id twoIps,
    (claim5_oversubscription 4 5 (by decide)).2 FakeResolver.solve id twoIps
      ipNine [ipOne] rfl⟩

/-- Claim C6 (amended): the engines that sort — `simple_solve` and
`parallel_solve` of `iplist.rs` and `simple_solve` of
`res/resolver.rs` — return their result in the canonical order whatever
the lookup, solver, scheduler and job count; but the `resolve.rs`
sequential engine and the async `parallel_solve` return the results
unsorted, in input or arrival order (`claim6_counterexample`). -/
theorem claim6_sorted_outputs (lookup : Lookup) (solver : Ip → Ip)
    (sched : Scheduler) (ipl : IpList) (njobs : Nat) :
    sortedChain (Iplist.simple_solve lookup ipl).list = true ∧
      sortedChain (Iplist.parallel_solve lookup sched ipl njobs).list = true ∧
      sortedChain (ResResolver.simple_solve solver ipl).list = true := by
  refine ⟨?_, ?_, ?_⟩ <;>
    exact sortedChain_of_pairwise _ (sortByAddr_sorted _)

/-- Claim C6, counterexample: the `resolve.rs` sequential engine returns
the concrete list `[9.9.9.9, 1.1.1.1]` unsorted — it omits the canonical
sort, so "sorted before it is returned to the caller" is false for this
resolution call. -/
theorem claim6_counterexample :
    sortedChain (ResolveRs.simple_solve (fun _ => Except.error "x")
        { list := [{ ip := IpAddr.v4 [9, 9, 9, 9], name := "" },
          { ip := IpAddr.v4 [1, 1, 1, 1], name := "" }] }).list = false := by
  decide

/-- Claim C7: every capability variant returns a record carrying the
input record's address; only the name is derived.  For the Live
`RealResolver` this holds for every record it returns (on lookup failure
it panics and returns none). -/
theorem claim7_address_preserved (r : Ip) (lookup : Lookup) :
    (NullResolver.solve r).ip = r.ip ∧
      (FakeResolver.solve r).ip = r.ip ∧
      (SleepResolver.solve r).ip = r.ip ∧
      (Ip.solve lookup r).ip = r.ip ∧
      ∀ r2, RealResolver.solve lookup r = Except.ok r2 → r2.ip = r.ip := by
  refine ⟨rfl, rfl, rfl, rfl, ?_⟩
  intro r2 h
  unfold RealResolver.solve at h
  cases hk : lookup r.ip with
  | ok nm =>
    rw [hk] at h
    simp only [Except.ok.injEq] at h
    subst h
    rfl
  | error e =>
    rw [hk] at h
    simp at h

/-- Claim C7, witness: the Live conjunct applied at a concrete record and
a succeeding lookup. -/
theorem claim7_witness :
    ({ ip := IpAddr.v4 [1, 1, 1, 1], name := "a.b" } : Ip).ip =
      ({ ip := IpAddr.v4 [1, 1, 1, 1], name := "" } : Ip).ip :=
  (claim7_address_preserved { ip := IpAddr.v4 [1, 1, 1, 1], name := "" }
      (fun _ => Except.ok "a.b")).2.2.2.2
    { ip := IpAddr.v4 [1, 1, 1, 1], name := "a.b" } rfl

/-- Claim C8 (amended): constructing a record from a string that does not
parse as an IPv4 or IPv6 address panics — `Ip::new` calls
`parse().unwrap()`, as its documentation and its `#[should_panic]` test
state — rather than returning a typed `InvalidAddress` error (no such
typed error exists in this code); a string that parses yields the record
with an empty name.  And because the string-taking `resolve` of
`res/mod.rs` constructs its records inside the resolve call, the same
panic also occurs during resolution when a raw string is invalid — there
too it is a panic, never a typed error. -/
theorem claim8_construction (s : String) :
    (IpAddr.parse s = none →
        Ip.new s = Except.error (ResError.panicked unwrapMsg)) ∧
      (∀ a, IpAddr.parse s = some a →
        Ip.new s = Except.ok { ip := a, name := "" }) ∧
      ∀ solver : Ip → Ip, IpAddr.parse s = none →
        ResMod.resolve solver [s, s] =
          Except.error (ResError.panicked unwrapMsg) := by
  refine ⟨?_, ?_, ?_⟩
  · intro h
    simp [Ip.new, h]
  · intro a h
    simp [Ip.new, h]
  · intro solver h
    have hn : Ip.new s = Except.error (ResError.panicked unwrapMsg) := by
      simp [Ip.new, h]
    simp [ResMod.resolve, ResMod.solveAll, hn, Except.map]

/-- Claim C8, counterexample: at the concrete invalid literal `"foobar"`
construction panics — the result is the panic marker, not a typed
error returned to the caller, so "as a typed error (not a panic)" is
false. -/
theorem claim8_counterexample :
    Ip.new "foobar" = Except.error (ResError.panicked unwrapMsg) := rfl

/-- Claim C8, witness: a concrete invalid literal panics at construction
and inside a concrete resolve call, and a concrete valid literal
constructs the record. -/
theorem claim8_witness :
    Ip.new "not-an-address" = Except.error (ResError.panicked unwrapMsg) ∧
      Ip.new "1.1.1.1" =
        Except.ok { ip := IpAddr.v4 [1, 1, 1, 1], name := "" } ∧
      ResMod.resolve FakeResolver.solve ["not-an-address", "not-an-address"] =
        Except.error (ResError.panicked unwrapMsg) :=
  ⟨(claim8_construction "not-an-address").1 (by decide),
    (claim8_construction "1.1.1.1").2.1 (IpAddr.v4 [1, 1, 1, 1]) (by decide),
    (claim8_construction "not-an-address").2.2 FakeResolver.solve (by decide)⟩

/-- Claim C9: the `Iterator` implementation of the `resolve.rs`
`IpList` never advances — on a non-empty list every call of `next`
returns a clone of the first element and leaves the state unchanged, so
the iteration never returns `None` and never terminates. -/
theorem claim9_iterator_stuck (ipl : IpList) (x : Ip) (rest : List Ip)
    (h : ipl.list = x :: rest) :
    ∀ n, ResolveRs.nextN ipl n = (some x, ipl) := by
  intro n
  induction n with
  | zero => simp [ResolveRs.nextN, ResolveRs.next, h]
  | succ m ih => simp [ResolveRs.nextN, ih, ResolveRs.next, h]

/-- Claim C9, witness: the fourth call of `next` on a concrete two-record
list still returns the first element and the unchanged list. -/
theorem claim9_witness :
    ResolveRs.nextN twoIps 3 = (some ipNine, twoIps) :=
  claim9_iterator_stuck twoIps ipNine [ipOne] rfl 3

/-- Claim C10: the Null and Fake capabilities are idempotent — running
`solve` on its own output returns the same record, because the output
name depends only on the address and the address is preserved. -/
theorem claim10_idempotent (r : Ip) :
    NullResolver.solve (NullResolver.solve r) = NullResolver.solve r ∧
      FakeResolver.solve (FakeResolver.solve r) = FakeResolver.solve r :=
  ⟨rfl, rfl⟩
